import Mathlib

/-!
Shallow embedding of the law-document structural extractor and the
hierarchy-aware chunker of the gnim-oracle repository
(`thai-legal-rag/src/ingestion/law_extractor.py` and
`thai-legal-rag/src/ingestion/chunker_law.py`), with theorems settling
the frozen claims about them.

Strings are modelled as Lean `String` values, i.e. sequences of Unicode
code points; this matches Python `str` indexing, slicing and `len`.
External libraries (PyMuPDF, the Gemini client, hashlib) are modelled as
oracle parameters.  Python regular expressions are translated into
explicit character-list matchers that reproduce the backtracking
behaviour of the concrete patterns used by the source.
-/

/-- One มาตรา or ข้อ with its position in the hierarchy:
dataclass `LawSection` of law_extractor.py. -/
structure LawSection where
  number : String
  label : String
  text : String
  part : String := ""
  chapter : String := ""
  paragraphs : List String := []
  deriving DecidableEq

/-- Parsed law document: dataclass `LawDocument` of law_extractor.py. -/
structure LawDocument where
  filename : String
  file_id : String
  law_name : String
  law_short_name : String
  law_type : String
  law_year_be : String
  sections : List LawSection := []
  full_text : String := ""
  ocr_engine : String := "pymupdf"
  total_sections : Nat := 0
  deriving DecidableEq

/-- Metadata attached to every law chunk: the keys written by
`_base_meta` together with the keys added by `meta.update` in the two
emitters of chunker_law.py (both emitters set all of the extra keys, so
a fixed record is a faithful model of the resulting dict).  The Python
dict key "section" is modelled by the field `sectionNo`. -/
structure ChunkMeta where
  doc_type : String
  law_name : String
  law_short_name : String
  law_type : String
  law_year_be : String
  part : String
  chapter : String
  source_drive_id : String
  source_name : String
  source_url : String
  file_url : String
  chunk_index : Nat
  category : String
  sectionNo : Option String := none
  paragraph : Option Nat := none
  total_paragraphs : Option Nat := none
  section_numbers : List String := []
  first_section : String := ""
  last_section : String := ""
  deriving DecidableEq

/-- Chunk dataclass of chunker.py: text plus metadata. -/
structure Chunk where
  text : String
  metadata : ChunkMeta
  deriving DecidableEq

/-- Base metadata shared by all chunk types (`_base_meta` of
chunker_law.py). -/
def base_meta (doc : LawDocument) (sec : LawSection) (chunk_index : Nat) : ChunkMeta :=
  { doc_type := "กฎหมาย"
    law_name := doc.law_name
    law_short_name := doc.law_short_name
    law_type := doc.law_type
    law_year_be := doc.law_year_be
    part := sec.part
    chapter := sec.chapter
    source_drive_id := doc.file_id
    source_name := doc.filename
    source_url := "https://drive.google.com/file/d/" ++ doc.file_id ++ "/view"
    file_url := "https://drive.google.com/file/d/" ++ doc.file_id ++ "/view"
    chunk_index := chunk_index
    category := "กฎหมาย" }

/-- Context header `[กฎหมาย | ภาค | หมวด | มาตรา X | วรรค Y]`
(`_context_header` of chunker_law.py).  The Python expression
`doc.law_short_name or doc.law_name` picks `law_name` exactly when the
short name is the empty string. -/
def context_header (doc : LawDocument) (sec : LawSection) (paragraph : Option Nat) : String :=
  let parts := [if doc.law_short_name ≠ "" then doc.law_short_name else doc.law_name]
  let parts := parts ++ (if sec.part ≠ "" then [sec.part] else [])
  let parts := parts ++ (if sec.chapter ≠ "" then [sec.chapter] else [])
  let parts := parts ++
    [if doc.law_type = "พระราชบัญญัติ" then "มาตรา " ++ sec.number else "ข้อ " ++ sec.number]
  let parts := parts ++ (match paragraph with
    | some i => ["วรรค " ++ toString i]
    | none => [])
  "[" ++ String.intercalate " | " parts ++ "]"

/-- Inner loop of `_emit_paragraph_chunks`: `for i, para_text in
enumerate(paras, start=1)` with the running chunk counter. -/
def emitParasAux (doc : LawDocument) (sec : LawSection) (total : Nat) :
    Nat → List String → List Chunk → Nat → List Chunk × Nat
  | _, [], chunks, chunk_index => (chunks, chunk_index)
  | i, para_text :: rest, chunks, chunk_index =>
    let header := context_header doc sec (some i)
    let chunk_text := header ++ "\n\n" ++ sec.label ++ "\n" ++ para_text
    let meta := { base_meta doc sec chunk_index with
      sectionNo := some sec.number
      paragraph := some i
      total_paragraphs := some total
      section_numbers := [sec.number]
      first_section := sec.number
      last_section := sec.number }
    emitParasAux doc sec total (i + 1) rest (chunks ++ [⟨chunk_text, meta⟩]) (chunk_index + 1)

/-- One chunk per วรรค for a long section (`_emit_paragraph_chunks` of
chunker_law.py).  Returns the extended chunk list and the next chunk
index. -/
def emit_paragraph_chunks (doc : LawDocument) (sec : LawSection)
    (chunks : List Chunk) (chunk_index : Nat) : List Chunk × Nat :=
  emitParasAux doc sec sec.paragraphs.length 1 sec.paragraphs chunks chunk_index

/-- One chunk for a group of short sections (`_emit_grouped_chunks` of
chunker_law.py). -/
def emit_grouped_chunks (doc : LawDocument) (secs : List LawSection)
    (chunks : List Chunk) (chunk_index : Nat) : List Chunk × Nat :=
  match secs with
  | [] => (chunks, chunk_index)
  | sec0 :: rest =>
    let section_numbers := (sec0 :: rest).map (fun s => s.number)
    let header := context_header doc sec0 none
    let body := String.intercalate "\n\n" ((sec0 :: rest).map (fun s => s.text))
    let chunk_text := header ++ "\n\n" ++ body
    let meta := { base_meta doc sec0 chunk_index with
      sectionNo := if section_numbers.length = 1 then some sec0.number else none
      paragraph := none
      total_paragraphs := none
      section_numbers := section_numbers
      first_section := sec0.number
      last_section := section_numbers.getLastD sec0.number }
    (chunks ++ [⟨chunk_text, meta⟩], chunk_index + 1)

/-- Loop state of `chunk_law_document`.  The field `groups` is a ghost
field recording the argument of every call of the grouped emitter; it
does not influence the chunks and exists so that invariants about
grouped chunks can be stated. -/
structure ChunkState where
  chunks : List Chunk := []
  chunk_index : Nat := 0
  pending : List LawSection := []
  pending_chars : Nat := 0
  pending_chapter : Option String := none
  groups : List (List LawSection) := []
  deriving DecidableEq

/-- The nested `flush_pending` of `chunk_law_document`: emit the pending
group if non-empty, then reset the pending accumulator. -/
def flush_pending (doc : LawDocument) (st : ChunkState) : ChunkState :=
  match st.pending with
  | [] => { st with pending := [], pending_chars := 0, pending_chapter := none }
  | sec0 :: rest =>
    let r := emit_grouped_chunks doc (sec0 :: rest) st.chunks st.chunk_index
    { chunks := r.1
      chunk_index := r.2
      pending := []
      pending_chars := 0
      pending_chapter := none
      groups := st.groups ++ [sec0 :: rest] }

/-- Body of the `for sec in doc.sections` loop of `chunk_law_document`. -/
def chunkStep (doc : LawDocument) (max_chars split_chars : Nat)
    (st : ChunkState) (sec : LawSection) : ChunkState :=
  let sec_len := sec.text.length
  if split_chars < sec_len ∧ 1 < sec.paragraphs.length then
    let st1 := flush_pending doc st
    let r := emit_paragraph_chunks doc sec st1.chunks st1.chunk_index
    { st1 with chunks := r.1, chunk_index := r.2 }
  else
    let chapter_changed := st.pending_chapter ≠ none ∧ st.pending_chapter ≠ some sec.chapter
    let would_exceed := max_chars < st.pending_chars + sec_len ∧ st.pending ≠ []
    let st1 := if chapter_changed ∨ would_exceed then flush_pending doc st else st
    { st1 with
      pending := st1.pending ++ [sec]
      pending_chars := st1.pending_chars + sec_len
      pending_chapter := some sec.chapter }

/-- Full run of the chunking loop including the final flush. -/
def chunkRun (doc : LawDocument) (max_chars split_chars : Nat) : ChunkState :=
  flush_pending doc (doc.sections.foldl (chunkStep doc max_chars split_chars) {})

/-- `chunk_law_document` of chunker_law.py: chunk a parsed LawDocument.
An empty section list yields the empty chunk list. -/
def chunk_law_document (doc : LawDocument) (max_chars split_chars : Nat) : List Chunk :=
  match doc.sections with
  | [] => []
  | _ :: _ => (chunkRun doc max_chars split_chars).chunks

/-- Ghost view of `chunk_law_document`: the list of section groups, one
per grouped chunk, in emission order. -/
def groupedGroups (doc : LawDocument) (max_chars split_chars : Nat) : List (List LawSection) :=
  match doc.sections with
  | [] => []
  | _ :: _ => (chunkRun doc max_chars split_chars).groups

/-- C1: for a document whose sections are exactly two sections under
chapter "หมวด 1" — มาตรา 1 with 40-character text and one paragraph, and
มาตรา 2 with 900-character text and exactly two paragraphs —
`chunk_law_document doc 800 400` returns exactly 3 chunks: first one
grouped chunk whose section_numbers contain only มาตรา 1's number, then
one chunk per paragraph of มาตรา 2 (paragraph 1 then paragraph 2), with
chunk_index metadata 0, 1, 2 in that order. -/
theorem C1_end_to_end_scenario
    (doc : LawDocument) (s1 s2 : LawSection) (p1 p2 : String)
    (hsec : doc.sections = [s1, s2])
    (hch1 : s1.chapter = "หมวด 1") (hch2 : s2.chapter = "หมวด 1")
    (hlen1 : s1.text.length = 40) (hpar1 : s1.paragraphs.length = 1)
    (hlen2 : s2.text.length = 900) (hpar2 : s2.paragraphs = [p1, p2]) :
    (chunk_law_document doc 800 400).length = 3 ∧
    (chunk_law_document doc 800 400).map (fun c => c.metadata.chunk_index) = [0, 1, 2] ∧
    (chunk_law_document doc 800 400).map (fun c => c.metadata.section_numbers) =
      [[s1.number], [s2.number], [s2.number]] ∧
    (chunk_law_document doc 800 400).map (fun c => c.metadata.paragraph) =
      [none, some 1, some 2] ∧
    (chunk_law_document doc 800 400).map (fun c => c.metadata.total_paragraphs) =
      [none, some 2, some 2] ∧
    (chunk_law_document doc 800 400).map (fun c => c.text) =
      [context_header doc s1 none ++ "\n\n" ++ s1.text,
       context_header doc s2 (some 1) ++ "\n\n" ++ s2.label ++ "\n" ++ p1,
       context_header doc s2 (some 2) ++ "\n\n" ++ s2.label ++ "\n" ++ p2] := by
  simp [chunk_law_document, hsec, chunkRun, chunkStep, flush_pending,
    emit_grouped_chunks, emit_paragraph_chunks, emitParasAux, base_meta,
    hlen1, hlen2, hpar2, String.intercalate, String.intercalate.go]

def wC1s1 : LawSection :=
  { number := "1", label := "มาตรา 1"
    text := "0123456789012345678901234567890123456789"
    chapter := "หมวด 1", paragraphs := ["เนื้อหา"] }

def wC1s2 : LawSection :=
  { number := "2", label := "มาตรา 2"
    text := String.mk (List.replicate 900 'x')
    chapter := "หมวด 1", paragraphs := ["วรรคหนึ่ง", "วรรคสอง"] }

def wC1doc : LawDocument :=
  { filename := "พรบทดสอบ.pdf", file_id := "FID"
    law_name := "พระราชบัญญัติทดสอบ พ.ศ. 2560"
    law_short_name := "พ.ร.บ.ฯ 2560", law_type := "พระราชบัญญัติ", law_year_be := "2560"
    sections := [wC1s1, wC1s2] }

set_option maxRecDepth 4000 in
/-- Concrete instance of C1 on a synthetic two-section Act. -/
theorem C1_end_to_end_scenario_witness :
    (chunk_law_document wC1doc 800 400).length = 3 ∧
    (chunk_law_document wC1doc 800 400).map (fun c => c.metadata.chunk_index) = [0, 1, 2] ∧
    (chunk_law_document wC1doc 800 400).map (fun c => c.metadata.section_numbers) =
      [[wC1s1.number], [wC1s2.number], [wC1s2.number]] ∧
    (chunk_law_document wC1doc 800 400).map (fun c => c.metadata.paragraph) =
      [none, some 1, some 2] ∧
    (chunk_law_document wC1doc 800 400).map (fun c => c.metadata.total_paragraphs) =
      [none, some 2, some 2] ∧
    (chunk_law_document wC1doc 800 400).map (fun c => c.text) =
      [context_header wC1doc wC1s1 none ++ "\n\n" ++ wC1s1.text,
       context_header wC1doc wC1s2 (some 1) ++ "\n\n" ++ wC1s2.label ++ "\n" ++ "วรรคหนึ่ง",
       context_header wC1doc wC1s2 (some 2) ++ "\n\n" ++ wC1s2.label ++ "\n" ++ "วรรคสอง"] :=
  C1_end_to_end_scenario wC1doc wC1s1 wC1s2 "วรรคหนึ่ง" "วรรคสอง"
    rfl rfl rfl (by decide) rfl (by decide) rfl

/-- Shape of every chunk text produced by the two emitters: a bracketed
context header, a blank line, and either the joined text of a non-empty
group of sections or one paragraph of a section preceded by the
section's original label line. -/
def ChunkShape (doc : LawDocument) (c : Chunk) : Prop :=
  (∃ sec0 rest, c.text = context_header doc sec0 none ++ "\n\n" ++
      String.intercalate "\n\n" ((sec0 :: rest).map (fun s => s.text))) ∨
  (∃ sec i p, p ∈ sec.paragraphs ∧
      c.text = context_header doc sec (some i) ++ "\n\n" ++ sec.label ++ "\n" ++ p)

/-- Invariant maintained by the chunking loop of `chunk_law_document`. -/
structure StateInv (doc : LawDocument) (m : Nat) (st : ChunkState) : Prop where
  idx_eq : st.chunk_index = st.chunks.length
  map_range : st.chunks.map (fun c => c.metadata.chunk_index) = List.range st.chunks.length
  pending_ch : ∀ x ∈ st.pending, some x.chapter = st.pending_chapter
  chars_eq : st.pending_chars = (st.pending.map (fun s => s.text.length)).sum
  chars_le : 2 ≤ st.pending.length → st.pending_chars ≤ m
  groups_ok : ∀ g ∈ st.groups, (∀ a ∈ g, ∀ b ∈ g, a.chapter = b.chapter) ∧
      ((g.map (fun s => s.text.length)).sum ≤ m ∨ ∃ sec, g = [sec] ∧ m < sec.text.length)
  shapes : ∀ c ∈ st.chunks, ChunkShape doc c

lemma emitParasAux_inv (doc : LawDocument) (sec : LawSection) (total : Nat) :
    ∀ (ps : List String) (i : Nat) (chunks : List Chunk) (ci : Nat),
      ci = chunks.length →
      chunks.map (fun c => c.metadata.chunk_index) = List.range chunks.length →
      (∀ c ∈ chunks, ChunkShape doc c) →
      (∀ p ∈ ps, p ∈ sec.paragraphs) →
      (emitParasAux doc sec total i ps chunks ci).2 =
          (emitParasAux doc sec total i ps chunks ci).1.length ∧
        (emitParasAux doc sec total i ps chunks ci).1.map (fun c => c.metadata.chunk_index) =
          List.range (emitParasAux doc sec total i ps chunks ci).1.length ∧
        ∀ c ∈ (emitParasAux doc sec total i ps chunks ci).1, ChunkShape doc c := by
  intro ps
  induction ps with
  | nil =>
    intro i chunks ci h1 h2 h3 _
    simpa [emitParasAux] using ⟨h1, h2, h3⟩
  | cons p ps ih =>
    intro i chunks ci h1 h2 h3 h4
    simp only [emitParasAux]
    apply ih
    · simp [h1]
    · simp [h2, h1, List.range_succ, base_meta]
    · intro c hc
      rcases List.mem_append.1 hc with h | h
      · exact h3 c h
      · have hce : c = ⟨context_header doc sec (some i) ++ "\n\n" ++ sec.label ++ "\n" ++ p,
            { base_meta doc sec ci with
              sectionNo := some sec.number
              paragraph := some i
              total_paragraphs := some total
              section_numbers := [sec.number]
              first_section := sec.number
              last_section := sec.number }⟩ := by simpa using h
        exact Or.inr ⟨sec, i, p, h4 p (by simp), by rw [hce]⟩
    · intro q hq
      exact h4 q (by simp [hq])

lemma flush_pending_inv (doc : LawDocument) (m : Nat) (st : ChunkState)
    (h : StateInv doc m st) : StateInv doc m (flush_pending doc st) := by
  rcases hp : st.pending with _ | ⟨sec0, rest⟩
  · constructor <;> simp [flush_pending, hp, h.idx_eq, h.map_range]
    · exact h.groups_ok
    · exact h.shapes
  · have hch : ∀ a ∈ sec0 :: rest, ∀ b ∈ sec0 :: rest, a.chapter = b.chapter := by
      intro a ha b hb
      have h1 := h.pending_ch a (hp ▸ ha)
      have h2 := h.pending_ch b (hp ▸ hb)
      have := h1.trans h2.symm
      exact Option.some.inj this
    have hsum : st.pending_chars = ((sec0 :: rest).map (fun s => s.text.length)).sum := by
      rw [h.chars_eq, hp]
    constructor <;> simp [flush_pending, hp, emit_grouped_chunks]
    · exact h.idx_eq
    · simp [h.map_range, h.idx_eq, List.range_succ, base_meta]
    · intro g hg
      rcases hg with hg | hg
      · exact h.groups_ok g hg
      · subst hg
        refine ⟨hch, ?_⟩
        rcases rest with _ | ⟨s1, rest'⟩
        · by_cases hle : ((sec0 :: []).map (fun s => s.text.length)).sum ≤ m
          · exact Or.inl hle
          · refine Or.inr ⟨sec0, rfl, ?_⟩
            simp at hle
            simpa using hle
        · refine Or.inl ?_
          rw [← hsum]
          exact h.chars_le (by rw [hp]; simp)
    · intro c hc
      rcases hc with hc | hc
      · exact h.shapes c hc
      · subst hc
        exact Or.inl ⟨sec0, rest, rfl⟩

lemma chunkStep_inv (doc : LawDocument) (m s : Nat) (st : ChunkState) (sec : LawSection)
    (h : StateInv doc m st) : StateInv doc m (chunkStep doc m s st sec) := by
  have hpend : (flush_pending doc st).pending = [] := by
    rw [flush_pending]
    rcases st.pending with _ | ⟨a, b⟩ <;> simp
  have hchars : (flush_pending doc st).pending_chars = 0 := by
    rw [flush_pending]
    rcases st.pending with _ | ⟨a, b⟩ <;> simp
  simp only [chunkStep]
  by_cases hl : s < sec.text.length ∧ 1 < sec.paragraphs.length
  · rw [if_pos hl]
    have h1 := flush_pending_inv doc m st h
    have hres := emitParasAux_inv doc sec sec.paragraphs.length sec.paragraphs 1
      (flush_pending doc st).chunks (flush_pending doc st).chunk_index
      h1.idx_eq h1.map_range h1.shapes (fun p hp => hp)
    refine ⟨?_, ?_, ?_, ?_, ?_, ?_, ?_⟩
    · exact hres.1
    · exact hres.2.1
    · simp [hpend]
    · simp [hpend, hchars]
    · simp [hpend]
    · exact h1.groups_ok
    · exact hres.2.2
  · rw [if_neg hl]
    by_cases hc : (st.pending_chapter ≠ none ∧ st.pending_chapter ≠ some sec.chapter) ∨
        (m < st.pending_chars + sec.text.length ∧ st.pending ≠ [])
    · rw [if_pos hc]
      have h1 := flush_pending_inv doc m st h
      refine ⟨h1.idx_eq, h1.map_range, ?_, ?_, ?_, h1.groups_ok, h1.shapes⟩
      · intro x hx
        rw [hpend] at hx
        simp at hx
        rw [hx]
      · simp [hpend, hchars]
      · rw [hpend]
        simp
    · rw [if_neg hc]
      push_neg at hc
      refine ⟨h.idx_eq, h.map_range, ?_, ?_, ?_, h.groups_ok, h.shapes⟩
      · intro x hx
        rcases List.mem_append.1 hx with hx | hx
        · have h1 := h.pending_ch x hx
          rcases Classical.em (st.pending_chapter = none) with hn | hn
          · rw [hn] at h1; exact absurd h1 (by simp)
          · rw [h1, hc.1 hn]
        · simp at hx
          rw [hx]
      · simp [h.chars_eq]
      · intro h2
        dsimp only at h2 ⊢
        rcases hlp : st.pending with _ | ⟨a, b⟩
        · rw [hlp] at h2; simp at h2
        · by_contra hgt
          push_neg at hgt
          have hemp := hc.2 hgt
          rw [hlp] at hemp
          exact absurd hemp (by simp)

lemma initState_inv (doc : LawDocument) (m : Nat) : StateInv doc m {} := by
  constructor <;> simp

lemma chunkRun_inv (doc : LawDocument) (m s : Nat) : StateInv doc m (chunkRun doc m s) := by
  rw [chunkRun]
  apply flush_pending_inv
  have : ∀ (l : List LawSection) (st : ChunkState), StateInv doc m st →
      StateInv doc m (l.foldl (chunkStep doc m s) st) := by
    intro l
    induction l with
    | nil => intro st hst; simpa using hst
    | cons a l ih => intro st hst; exact ih _ (chunkStep_inv doc m s st a hst)
  exact this doc.sections {} (initState_inv doc m)

/-- C2: for every LawDocument and any max_chars and split_chars, the
chunk_index metadata values of `chunk_law_document` are exactly the
sequence 0, 1, ..., len-1 in emission order (no gaps, no repeats), and a
document with an empty sections list yields the empty chunk list. -/
theorem C2_chunk_index_contiguity (doc : LawDocument) (m s : Nat) :
    (chunk_law_document doc m s).map (fun c => c.metadata.chunk_index) =
      List.range (chunk_law_document doc m s).length ∧
    (doc.sections = [] → chunk_law_document doc m s = []) := by
  constructor
  · rcases h : doc.sections with _ | ⟨a, l⟩
    · simp [chunk_law_document, h]
    · have hr := (chunkRun_inv doc m s).map_range
      simp only [chunk_law_document, h]
      exact hr
  · intro h
    simp [chunk_law_document, h]

def wC2doc : LawDocument :=
  { filename := "empty.pdf", file_id := "E", law_name := "", law_short_name := ""
    law_type := "", law_year_be := "", sections := [] }

/-- Concrete instance of C2: an empty document yields no chunks and a
contiguous (empty) chunk_index sequence. -/
theorem C2_chunk_index_contiguity_witness :
    (chunk_law_document wC2doc 800 400).map (fun c => c.metadata.chunk_index) =
      List.range (chunk_law_document wC2doc 800 400).length ∧
    chunk_law_document wC2doc 800 400 = [] :=
  ⟨(C2_chunk_index_contiguity wC2doc 800 400).1,
   (C2_chunk_index_contiguity wC2doc 800 400).2 rfl⟩

/-- C3: all sections accumulated into any one grouped chunk emitted by
`chunk_law_document` have equal chapter values, so no grouped chunk's
constituent sections span more than one distinct non-empty chapter. -/
theorem C3_grouped_chunk_chapter_purity (doc : LawDocument) (m s : Nat)
    (g : List LawSection) (hg : g ∈ groupedGroups doc m s) :
    ∀ a ∈ g, ∀ b ∈ g, a.chapter = b.chapter := by
  rcases h : doc.sections with _ | ⟨x, l⟩
  · rw [groupedGroups, h] at hg
    simp at hg
  · rw [groupedGroups, h] at hg
    exact ((chunkRun_inv doc m s).groups_ok g hg).1

def wC3s1 : LawSection :=
  { number := "1", label := "มาตรา 1", text := "สั้นหนึ่ง", chapter := "หมวด 1" }

def wC3s2 : LawSection :=
  { number := "2", label := "มาตรา 2", text := "สั้นสอง", chapter := "หมวด 1" }

def wC3doc : LawDocument :=
  { filename := "กฎทดสอบ.pdf", file_id := "G", law_name := "กฎหมายทดสอบ"
    law_short_name := "กฎฯ", law_type := "พระราชบัญญัติ", law_year_be := ""
    sections := [wC3s1, wC3s2] }

/-- Concrete instance of C3 on a two-section group. -/
theorem C3_grouped_chunk_chapter_purity_witness :
    wC3s1.chapter = wC3s2.chapter :=
  C3_grouped_chunk_chapter_purity wC3doc 800 400 [wC3s1, wC3s2] (by decide)
    wC3s1 (by decide) wC3s2 (by decide)

/-- C4: the summed section-text length of every grouped chunk emitted by
`chunk_law_document` with budget max_chars is at most max_chars, except
when the group is a single section whose own text length exceeds
max_chars, in which case it is emitted as its own one-section group
rather than dropped. -/
theorem C4_grouped_chunk_size_bound (doc : LawDocument) (m s : Nat)
    (g : List LawSection) (hg : g ∈ groupedGroups doc m s) :
    (g.map (fun sec => sec.text.length)).sum ≤ m ∨
      ∃ sec, g = [sec] ∧ m < sec.text.length := by
  rcases h : doc.sections with _ | ⟨x, l⟩
  · rw [groupedGroups, h] at hg
    simp at hg
  · rw [groupedGroups, h] at hg
    exact ((chunkRun_inv doc m s).groups_ok g hg).2

def wC4s1 : LawSection :=
  { number := "9", label := "มาตรา 9"
    text := String.mk (List.replicate 30 'ย'), chapter := "หมวด 9" }

def wC4doc : LawDocument :=
  { filename := "ใหญ่.pdf", file_id := "B", law_name := "กฎหมายใหญ่"
    law_short_name := "ใหญ่ฯ", law_type := "พระราชบัญญัติ", law_year_be := ""
    sections := [wC4s1] }

/-- Concrete instance of C4: a one-section group satisfies the size
bound disjunction at budget 20. -/
theorem C4_grouped_chunk_size_bound_witness :
    ([wC4s1].map (fun sec => sec.text.length)).sum ≤ 20 ∨
      ∃ sec, [wC4s1] = [sec] ∧ 20 < sec.text.length :=
  C4_grouped_chunk_size_bound wC4doc 20 400 [wC4s1] (by decide)

lemma context_header_bracket (doc : LawDocument) (sec : LawSection) (p : Option Nat) :
    ∃ mid, context_header doc sec p = "[" ++ mid := by
  simp only [context_header]
  exact ⟨_, String.append_assoc "[" _ "]"⟩

lemma bracket_extend (x y : String) (h : ∃ m, x = "[" ++ m) :
    ∃ r, x ++ y = "[" ++ r := by
  rcases h with ⟨m, hm⟩
  exact ⟨m ++ y, by rw [hm, String.append_assoc]⟩

lemma bracket_ne_empty (x : String) (h : ∃ r, x = "[" ++ r) : x ≠ "" := by
  rcases h with ⟨r, hr⟩
  intro he
  rw [he] at hr
  have hd := congrArg String.data hr
  simp [String.data_append] at hd

/-- C7: every chunk emitted by `chunk_law_document` has text equal to a
bracketed " | "-joined context header (built by `context_header` from
law_short_name or law_name, non-empty part, non-empty chapter, the
section label, and a paragraph label for paragraph-split chunks)
followed by a blank line and the body — the joined text of the grouped
sections, or one paragraph preceded by the section's original label
line; hence every chunk's text is non-empty and begins with "[". -/
theorem C7_chunk_text_shape (doc : LawDocument) (m s : Nat) (c : Chunk)
    (hc : c ∈ chunk_law_document doc m s) :
    c.text ≠ "" ∧ (∃ r, c.text = "[" ++ r) ∧ ChunkShape doc c := by
  have hshape : ChunkShape doc c := by
    rcases h : doc.sections with _ | ⟨x, l⟩
    · simp only [chunk_law_document, h] at hc
      simp at hc
    · simp only [chunk_law_document, h] at hc
      exact (chunkRun_inv doc m s).shapes c hc
  have hbr : ∃ r, c.text = "[" ++ r := by
    rcases hshape with ⟨sec0, rest, ht⟩ | ⟨sec, i, p, _, ht⟩
    · rw [ht]
      exact bracket_extend _ _ (bracket_extend _ _ (context_header_bracket doc sec0 none))
    · rw [ht]
      exact bracket_extend _ _ (bracket_extend _ _ (bracket_extend _ _
        (bracket_extend _ _ (context_header_bracket doc sec (some i)))))
  exact ⟨bracket_ne_empty _ hbr, hbr, hshape⟩

def wC7s1 : LawSection :=
  { number := "3", label := "ข้อ 3", text := "ข้อความสั้น", chapter := "หมวด 2" }

def wC7doc : LawDocument :=
  { filename := "ระเบียบทดสอบ.pdf", file_id := "R", law_name := "ระเบียบทดสอบ"
    law_short_name := "ระเบียบฯ", law_type := "ระเบียบ", law_year_be := ""
    sections := [wC7s1] }

/-- Concrete instance of C7 on the first chunk of a one-section
document. -/
theorem C7_chunk_text_shape_witness :
    ((chunk_law_document wC7doc 800 400).getD 0 ⟨"", base_meta wC7doc wC7s1 0⟩).text ≠ "" ∧
    (∃ r, ((chunk_law_document wC7doc 800 400).getD 0
        ⟨"", base_meta wC7doc wC7s1 0⟩).text = "[" ++ r) ∧
    ChunkShape wC7doc ((chunk_law_document wC7doc 800 400).getD 0
        ⟨"", base_meta wC7doc wC7s1 0⟩) :=
  C7_chunk_text_shape wC7doc 800 400 _ (by decide)

/-!
String helpers modelling the Python built-ins used by
law_extractor.py.  Python whitespace handling is modelled on the ASCII
whitespace characters (space, tab, newline, carriage return, vertical
tab, form feed); the repository's inputs do not use the additional
Unicode whitespace code points Python would also accept.
-/

/-- Whitespace set of Python `str.strip` and of the regex class `\s`
(ASCII part). -/
def pyIsSpace (c : Char) : Bool :=
  c = ' ' ∨ c = '\t' ∨ c = '\n' ∨ c = '\r' ∨ c = '\x0b' ∨ c = '\x0c'

/-- Python `str.strip()` on a character list. -/
def pyStripList (cs : List Char) : List Char :=
  ((cs.dropWhile pyIsSpace).reverse.dropWhile pyIsSpace).reverse

/-- Python `str.strip()`. -/
def pyStrip (s : String) : String :=
  ⟨pyStripList s.data⟩

/-- Split a character list at each newline (the behaviour of
`String.split` on the newline predicate, written structurally). -/
def splitOnNL : List Char → List Char → List String
  | [], acc => [⟨acc.reverse⟩]
  | c :: rest, acc =>
    if c = '\n' then ⟨acc.reverse⟩ :: splitOnNL rest [] else splitOnNL rest (c :: acc)

/-- Python `str.splitlines()` restricted to the newline separator: the
split parts on each newline, without a trailing empty part for a final
newline.  The source texts use plain newlines only. -/
def pySplitlines (s : String) : List String :=
  let parts := splitOnNL s.data []
  if parts.getLast? = some "" then parts.dropLast else parts

/-- Join lines with newlines: Python `"\n".join(lines)`. -/
def joinNL (l : List String) : String :=
  String.intercalate "\n" l

/-- Substring test on character lists: Python `needle in hay`. -/
def listContains (needle : List Char) : List Char → Bool
  | [] => needle.isPrefixOf []
  | c :: rest => needle.isPrefixOf (c :: rest) || listContains needle rest

/-- Python `needle in hay` for strings. -/
def pyInStr (needle hay : String) : Bool :=
  listContains needle.data hay.data

/-- Python slicing `s[:k]` (by code points). -/
def pyTake (s : String) (k : Nat) : String :=
  ⟨s.data.take k⟩

/-- Python `str.lower()`: only ASCII letters occur in a case-bearing
position in the repository's filenames; Thai has no case. -/
def pyLower (s : String) : String :=
  ⟨s.data.map Char.toLower⟩

/-- Prefix test: Python `re.match` of a literal against a string. -/
def strStarts (p s : String) : Bool :=
  p.data.isPrefixOf s.data

/-- Thai digit test: the regex class `[๐-๙]` is exactly these ten code
points. -/
def isThaiDigit (c : Char) : Bool :=
  c = '๐' ∨ c = '๑' ∨ c = '๒' ∨ c = '๓' ∨ c = '๔' ∨
  c = '๕' ∨ c = '๖' ∨ c = '๗' ∨ c = '๘' ∨ c = '๙'

/-- Digit test of the regex class `[๐-๙\d]` and of `\d`.  Python `\d`
matches every Unicode decimal digit; the Thai and ASCII ranges are the
ones present in the repository's inputs. -/
def pyIsDigit (c : Char) : Bool :=
  c.isDigit || isThaiDigit c

/-- Thai consonant test: regex class `[ก-ฮ]`. -/
def isThaiCons (c : Char) : Bool :=
  0x0E01 ≤ c.toNat ∧ c.toNat ≤ 0x0E2E

/-- `_to_arabic` of law_extractor.py: translate each Thai digit glyph to
its Arabic counterpart, leaving all other characters unchanged. -/
def toArabicChar (c : Char) : Char :=
  if c = '๐' then '0' else if c = '๑' then '1' else if c = '๒' then '2'
  else if c = '๓' then '3' else if c = '๔' then '4' else if c = '๕' then '5'
  else if c = '๖' then '6' else if c = '๗' then '7' else if c = '๘' then '8'
  else if c = '๙' then '9' else c

/-- `_to_arabic` on strings. -/
def to_arabic (s : String) : String :=
  ⟨s.data.map toArabicChar⟩

/-- Regex `_LIST_ITEM_RE` = `^\([ก-ฮ๐-๙\d]+\)` matched at the start of
a string. -/
def isListItemStart (s : String) : Bool :=
  match s.data with
  | '(' :: rest =>
    let ds := rest.takeWhile (fun c => isThaiCons c || pyIsDigit c)
    !ds.isEmpty && ((rest.drop ds.length).head? == some ')')
  | _ => false

/-- Regex `_DEFINITE_SUBJECT_RE` matched at the start of a string: one of
the fixed Thai legal-authority nouns of law_extractor.py. -/
def isDefSubjectStart (s : String) : Bool :=
  ["รัฐมนตรี", "คณะกรรมการ", "คณะรัฐมนตรี", "ประธาน", "ผู้ว่าราชการ", "อธิบดี", "นายก", "ปลัด", "หัวหน้า", "ผู้อํานวยการ", "ผู้อำนวยการ", "กรมการ", "ผู้บัญชาการ"].any (fun w => strStarts w s)

/-- Keyword head of the section patterns: `(?:มาตรา|ข้อ)` as a prefix,
returning the remainder. -/
def afterSectionKeyword (cs : List Char) : Option (List Char) :=
  if "มาตรา".data.isPrefixOf cs then some (cs.drop 5)
  else if "ข้อ".data.isPrefixOf cs then some (cs.drop 3)
  else none

/-- Match `\s+[๐-๙\d]+` at the head of a character list, returning the
digit group and the remainder. -/
def wsThenDigits (cs : List Char) : Option (List Char × List Char) :=
  let ws := cs.takeWhile pyIsSpace
  if ws.isEmpty then none
  else
    let cs1 := cs.drop ws.length
    let dg := cs1.takeWhile pyIsDigit
    if dg.isEmpty then none else some (dg, cs1.drop dg.length)

/-- Regex `_SECTION_START_RE` = `^(?:มาตรา|ข้อ)\s+[๐-๙\d]+` matched at
the start of a string. -/
def isSectionStart (s : String) : Bool :=
  match afterSectionKeyword s.data with
  | some cs => (wsThenDigits cs).isSome
  | none => false

/-- Group 1 of `re.match(r"(?:มาตรา|ข้อ)\s+([๐-๙\d]+(?:/[๐-๙\d]+)?)", label)`:
the section numeral with its optional sub-index. -/
def sectionNumGroup (s : String) : Option String :=
  match afterSectionKeyword s.data with
  | none => none
  | some cs =>
    match wsThenDigits cs with
    | none => none
    | some (dg, rest) =>
      match rest with
      | '/' :: r2 =>
        let dg2 := r2.takeWhile pyIsDigit
        if dg2.isEmpty then some ⟨dg⟩ else some ⟨dg ++ '/' :: dg2⟩
      | _ => some ⟨dg⟩

/-- Regexes `_PART_RE` and `_CHAPTER_RE`:
`^(kw(?:\s*ที่)?\s*[๐-๙\d]+(?:\s+[^\n]+)?)` matched at the start of a
string; the optional group is tried first and dropped on failure, as the
backtracking engine does. -/
def isHeadingMarker (kw : String) (s : String) : Bool :=
  if kw.data.isPrefixOf s.data then
    let cs := s.data.drop kw.data.length
    let cs1 := cs.dropWhile pyIsSpace
    (if "ที่".data.isPrefixOf cs1 then
      let cs2 := (cs1.drop 3).dropWhile pyIsSpace
      match cs2.head? with
      | some c => pyIsDigit c
      | none => false
    else false) ||
    (match cs1.head? with
     | some c => pyIsDigit c
     | none => false)
  else false

/-- A line matched by the separator class `[ \t]*` of the paragraph
split regex `\n(?:[ \t]*\n)+`: empty or containing only spaces/tabs. -/
def isBlankSep (s : String) : Bool :=
  s.data.all (fun c => c = ' ' ∨ c = '\t')

/-- Group consecutive non-separator lines into maximal blocks.  This is
`re.split(r"\n(?:[ \t]*\n)+", content)` up to the stripping and
empty-dropping that `_split_paragraphs` applies to every raw paragraph
immediately afterwards. -/
def splitBlocksAux : List String → List String → List (List String)
  | [], acc => if acc.isEmpty then [] else [acc.reverse]
  | l :: rest, acc =>
    if isBlankSep l then
      if acc.isEmpty then splitBlocksAux rest [] else acc.reverse :: splitBlocksAux rest []
    else splitBlocksAux rest (l :: acc)

/-- Raw paragraph candidates of `_split_paragraphs`. -/
def splitBlankRuns (s : String) : List String :=
  (splitBlocksAux (pySplitlines s) []).map joinNL

/-- Line scan of `_split_list_para`: classify each line of a list-item
paragraph into the list part or the trailing new-วรรค part. -/
def slpAux : List String → Bool → List String → List String → List String × List String
  | [], _, listAcc, tailAcc => (listAcc.reverse, tailAcc.reverse)
  | l :: rest, afterList, listAcc, tailAcc =>
    let stripped := pyStrip l
    if stripped = "" then slpAux rest afterList listAcc tailAcc
    else if afterList then slpAux rest true listAcc (l :: tailAcc)
    else if isListItemStart stripped then slpAux rest false (l :: listAcc) tailAcc
    else if isDefSubjectStart stripped then slpAux rest true listAcc (l :: tailAcc)
    else slpAux rest false (l :: listAcc) tailAcc

/-- `_split_list_para` of law_extractor.py: split a paragraph that
starts with a list marker into the part merged into the previous วรรค
and the optional trailing new วรรค that begins at a definite-subject
line. -/
def split_list_para (para prev_varak : String) : String × Option String :=
  let r := slpAux (pySplitlines para) false [] []
  let list_part := if r.1.isEmpty then prev_varak else prev_varak ++ "\n" ++ joinNL r.1
  let tail_varak := if r.2.isEmpty then none else some (pyStrip (joinNL r.2))
  (list_part, tail_varak)

/-- Body of the paragraph loop of `_split_paragraphs`. -/
def paraFold (paragraphs : List String) (para : String) : List String :=
  let p := pyStrip para
  if p = "" then paragraphs
  else
    match paragraphs with
    | [] => paragraphs ++ [p]
    | _ :: _ =>
      if isListItemStart p then
        let r := split_list_para p (paragraphs.getLastD "")
        paragraphs.dropLast ++ [r.1] ++ (match r.2 with
          | some t => [t]
          | none => [])
      else paragraphs ++ [p]

/-- `_split_paragraphs` of law_extractor.py: split a section's text into
วรรค, dropping the label line, splitting on blank lines, merging list
items into the preceding วรรค, and splitting off a trailing วรรค that
starts at a definite-subject line inside a list block. -/
def split_paragraphs (section_text : String) : List String :=
  let lines := pySplitlines (pyStrip section_text)
  let content_lines := match lines with
    | [] => lines
    | l0 :: rest => if isSectionStart (pyStrip l0) then rest else lines
  let content := joinNL content_lines
  (splitBlankRuns content).foldl paraFold []

/-- C5: the paragraph splitter drops the label line, splits on
blank-or-whitespace-only lines, merges a list-marker candidate into the
preceding paragraph whenever one exists, and splits off the first
definite-subject line of a merged block together with everything after
it as one new trailing paragraph; in particular the claim's body yields
exactly the two stated paragraphs.  The second conjunct exercises the
label drop and the in-block definite-subject split, the third the
no-preceding-paragraph case. -/
theorem C5_paragraph_reattachment :
    split_paragraphs
        "เนื้อหาหลัก\n\n(ก) รายการแรก\n(ข) รายการสอง\n\nรัฐมนตรีอาจออกกฎกระทรวง..." =
      ["เนื้อหาหลัก\n(ก) รายการแรก\n(ข) รายการสอง", "รัฐมนตรีอาจออกกฎกระทรวง..."] ∧
    split_paragraphs "ข้อ 1\nเนื้อหา\n\n(ก) รายการ\nรัฐมนตรีกำหนด" =
      ["เนื้อหา\n(ก) รายการ", "รัฐมนตรีกำหนด"] ∧
    split_paragraphs "(ก) รายการ" = ["(ก) รายการ"] := by
  refine ⟨?_, ?_, ?_⟩ <;> decide

/-- Split a character list at each occurrence of a separator character. -/
def splitOnChar (sep : Char) : List Char → List Char → List String
  | [], acc => [⟨acc.reverse⟩]
  | c :: rest, acc =>
    if c = sep then ⟨acc.reverse⟩ :: splitOnChar sep rest [] else splitOnChar sep rest (c :: acc)

/-- Drop the suffix of a path name: pathlib keeps the name unchanged
unless its last dot lies strictly inside it. -/
def lastDotSplit (cs : List Char) : List Char :=
  match cs.reverse.findIdx? (fun c => c = '.') with
  | none => cs
  | some j =>
    let i := cs.length - 1 - j
    if 0 < i ∧ i < cs.length - 1 then cs.take i else cs

/-- `Path(filename).stem`: the final path component without its suffix.
The repository passes plain file names here. -/
def pathStem (fn : String) : String :=
  let name := (splitOnChar '/' fn.data []).getLastD ⟨fn.data⟩
  ⟨lastDotSplit name.data⟩

/-- Whitespace-run collapsing: `re.sub(r"\s+", " ", s)`. -/
def cwAux : Bool → List Char → List Char
  | _, [] => []
  | prevSpace, c :: t =>
    if pyIsSpace c then
      if prevSpace then cwAux true t else ' ' :: cwAux true t
    else c :: cwAux false t

/-- `re.sub(r"\s+", " ", s)` on strings. -/
def collapseWs (s : String) : String :=
  ⟨cwAux false s.data⟩

/-- Python `str.replace` for one-character needles. -/
def replaceChar (a b : Char) (s : String) : String :=
  ⟨s.data.map (fun c => if c = a then b else c)⟩

/-- Attempt of the year regex `พ\.ศ\.\s*([๐-๙]{4}|\d{4})` at one fixed
position: both alternatives take exactly four digit characters after the
greedy whitespace skip, so the group is the next four characters when
they are all digits. -/
def tryYearAt (cs : List Char) : Option (List Char) :=
  if "พ.ศ.".data.isPrefixOf cs then
    let cs1 := (cs.drop 4).dropWhile pyIsSpace
    let dg := cs1.take 4
    if dg.length = 4 ∧ dg.all pyIsDigit then some dg else none
  else none

/-- Leftmost match of the year regex: `re.search` scans position by
position. -/
def yearScan : List Char → Option (List Char)
  | [] => none
  | c :: rest =>
    match tryYearAt (c :: rest) with
    | some dg => some dg
    | none => yearScan rest

/-- Step 2 of `_detect_law_meta`: the Buddhist-Era year extracted from
the first 3000 characters, normalized to Arabic digits, empty when
absent. -/
def detect_year (text : String) : String :=
  match yearScan (pyTake text 3000).data with
  | some dg => to_arabic ⟨dg⟩
  | none => ""

/-- Step 1 of `_detect_law_meta`: the law type from filename-stem
keywords first (Act before Announcement, with the ราชกิจจา guard), then
from the first 300 characters of the text, defaulting to "กฎหมาย". -/
def lawTypeOf (text filename : String) : String :=
  let stem := pyLower (pathStem filename)
  if pyInStr "พรบ" stem || pyInStr "พ.ร.บ" stem then "พระราชบัญญัติ"
  else if pyInStr "ระเบียบ" stem then "ระเบียบ"
  else if pyInStr "กฎกระทรวง" stem then "กฎกระทรวง"
  else if pyInStr "ประกาศ" stem && !pyInStr "ราชกิจจา" stem then "ประกาศ"
  else
    let head300 := pyTake text 300
    if pyInStr "ระเบียบกระทรวง" head300 || pyInStr "ระเบียบ" head300 then "ระเบียบ"
    else if pyInStr "กฎกระทรวง" head300 then "กฎกระทรวง"
    else if pyInStr "พระราชบัญญัติ" head300 then "พระราชบัญญัติ"
    else "กฎหมาย"

/-- Continuation lines of a multi-line law title (step 3 of
`_detect_law_meta`): absorb up to four following lines, stopping at a
blank line, keeping a line that contains the year marker, and excluding
a line that starts a structural marker. -/
def absorbLines : List String → List String
  | [] => []
  | l :: rest =>
    let nl := pyStrip l
    if nl = "" then []
    else if pyInStr "พ.ศ." nl then [nl]
    else if strStarts "มาตรา" nl || strStarts "ข้อ" nl || strStarts "หมวด" nl ||
        strStarts "ภาค" nl then []
    else nl :: absorbLines rest

/-- Find the first head line containing the law-type keyword and
assemble the multi-line title (step 3 of `_detect_law_meta`). -/
def findLawName (law_type : String) : List String → Option String
  | [] => none
  | line :: rest =>
    if pyInStr law_type (pyStrip line) then
      some (pyStrip (collapseWs
        (String.intercalate " " (pyStrip line :: absorbLines (rest.take 4)))))
    else findLawName law_type rest

/-- Step 4 of `_detect_law_meta`: the short citation name. -/
def shortNameOf (text filename law_name law_type law_year_be : String) : String :=
  let suffix := if law_year_be ≠ "" then " " ++ law_year_be else ""
  let stem_clean := pyLower (pathStem filename)
  if pyInStr "พรบ" stem_clean || pyInStr "พ.ร.บ" stem_clean then
    if pyInStr "จัดซื้อ" stem_clean || pyInStr "จัดซื้อจัดจ้าง" law_name then
      "พ.ร.บ.จัดซื้อจัดจ้างฯ" ++ suffix
    else "พ.ร.บ.ฯ" ++ suffix
  else if pyInStr "ระเบียบ" stem_clean then
    if pyInStr "จัดซื้อ" stem_clean || pyInStr "จัดซื้อจัดจ้าง" law_name ||
        pyInStr "จัดซื้อจัดจ้าง" (pyTake text 1000) then
      "ระเบียบฯ จัดซื้อจัดจ้าง" ++ suffix
    else "ระเบียบฯ" ++ suffix
  else if pyInStr "กฎกระทรวง" stem_clean then "กฎกระทรวงฯ" ++ suffix
  else
    let lsn :=
      if pyInStr "พระราชบัญญัติการจัดซื้อจัดจ้าง" law_name then
        "พ.ร.บ.จัดซื้อจัดจ้างฯ" ++ suffix
      else if pyInStr "ระเบียบกระทรวงการคลังว่าด้วยการจัดซื้อจัดจ้าง" law_name then
        "ระเบียบฯ จัดซื้อจัดจ้าง" ++ suffix
      else law_name
    if lsn = law_name ∧ law_name.length < 8 then law_type ++ "ฯ" ++ suffix else lsn

/-- `_detect_law_meta` of law_extractor.py: detect
(law_name, law_short_name, law_type, law_year_be) from text and
filename. -/
def detect_law_meta (text filename : String) : String × String × String × String :=
  let law_type := lawTypeOf text filename
  let law_year_be := detect_year text
  let law_name :=
    match findLawName law_type (pySplitlines (pyTake text 3000)) with
    | some n => n
    | none => pyStrip (replaceChar '-' ' ' (replaceChar '+' ' ' (pathStem filename)))
  let law_short_name := shortNameOf text filename law_name law_type law_year_be
  (law_name, law_short_name, law_type, law_year_be)

lemma toArabicChar_digit (c : Char) (h : pyIsDigit c = true) :
    (toArabicChar c).isDigit = true := by
  have hcases : c.isDigit = true ∨ isThaiDigit c = true := by
    simpa [pyIsDigit, Bool.or_eq_true] using h
  rcases hcases with h1 | h1
  · unfold toArabicChar
    split_ifs with h2 h3 h4 h5 h6 h7 h8 h9 h10 h11 <;> first | decide | exact h1
  · simp only [isThaiDigit, decide_eq_true_eq] at h1
    rcases h1 with h1 | h1 | h1 | h1 | h1 | h1 | h1 | h1 | h1 | h1 <;> subst h1 <;> decide

lemma to_arabic_all_digits (l : List Char) (h : l.all pyIsDigit = true) :
    (l.map toArabicChar).all Char.isDigit = true := by
  induction l with
  | nil => simp
  | cons c t ih =>
    simp only [List.all_cons, Bool.and_eq_true] at h
    simp only [List.map_cons, List.all_cons, Bool.and_eq_true]
    exact ⟨toArabicChar_digit c h.1, ih h.2⟩

lemma tryYearAt_spec (cs : List Char) (dg : List Char) (h : tryYearAt cs = some dg) :
    dg.length = 4 ∧ dg.all pyIsDigit = true := by
  simp only [tryYearAt] at h
  split_ifs at h with h1 h2
  · cases h
    exact ⟨h2.1, h2.2⟩
  all_goals exact absurd h (by simp)

lemma yearScan_spec : ∀ (cs dg : List Char), yearScan cs = some dg →
    dg.length = 4 ∧ dg.all pyIsDigit = true := by
  intro cs
  induction cs with
  | nil => intro dg h; simp [yearScan] at h
  | cons c rest ih =>
    intro dg h
    rw [yearScan] at h
    rcases ht : tryYearAt (c :: rest) with _ | dg2
    · rw [ht] at h
      exact ih dg h
    · rw [ht] at h
      cases h
      exact tryYearAt_spec _ _ ht

lemma detect_year_spec (t : String) (h : detect_year t ≠ "") :
    (detect_year t).length = 4 ∧ (detect_year t).data.all Char.isDigit = true := by
  unfold detect_year at h ⊢
  rcases hy : yearScan (pyTake t 3000).data with _ | dg
  · rw [hy] at h
    simp at h
  · rw [hy] at h
    have hspec := yearScan_spec _ dg hy
    refine ⟨?_, ?_⟩
    · show (to_arabic ⟨dg⟩).length = 4
      simp only [to_arabic, String.length]
      simpa using hspec.1
    · show (to_arabic ⟨dg⟩).data.all Char.isDigit = true
      simpa [to_arabic] using to_arabic_all_digits dg hspec.2

/-- Modelled from the spec (claim C8's words): the fallback scan as the
claim states it — "the same keyword set in the same priority order" as
the filename step (Act keyword first, then Regulation, Ministerial-Rule
and Announcement with the ราชกิจจา guard) over the first 300 characters,
defaulting to the generic type.  This is the claimed behaviour, to be
compared with `lawTypeOf`. -/
def claimedFallbackLawType (text : String) : String :=
  let head300 := pyTake text 300
  if pyInStr "พรบ" head300 || pyInStr "พ.ร.บ" head300 then "พระราชบัญญัติ"
  else if pyInStr "ระเบียบ" head300 then "ระเบียบ"
  else if pyInStr "กฎกระทรวง" head300 then "กฎกระทรวง"
  else if pyInStr "ประกาศ" head300 && !pyInStr "ราชกิจจา" head300 then "ประกาศ"
  else "กฎหมาย"

/-- C8 fails as stated: (a) only the filename STEM is examined, so the
filename "ประกาศ.พรบ" contains both keywords yet is detected as
"ประกาศ"; (b) the text fallback does not use the same keyword set in
the same priority order — on a text whose head contains the Act
filename keyword "พรบ" the claimed scan yields the Act type while the
code yields the generic "กฎหมาย". -/
theorem C8_keyword_priority_counterexample :
    (pyInStr "พรบ" "ประกาศ.พรบ" = true ∧ pyInStr "ประกาศ" "ประกาศ.พรบ" = true ∧
      (detect_law_meta "" "ประกาศ.พรบ").2.2.1 = "ประกาศ" ∧
      ("ประกาศ" : String) ≠ "พระราชบัญญัติ") ∧
    ((detect_law_meta "พรบ วิธีปฏิบัติทางปกครอง" "x.pdf").2.2.1 = "กฎหมาย" ∧
      claimedFallbackLawType "พรบ วิธีปฏิบัติทางปกครอง" = "พระราชบัญญัติ") := by
  refine ⟨⟨?_, ?_, ?_, ?_⟩, ?_, ?_⟩ <;> decide

/-- C8 amended: law_type comes from filename-stem keywords with the Act
keyword checked before the Announcement keyword, so a filename whose
stem contains both "พรบ" and "ประกาศ" yields "พระราชบัญญัติ"; when no
filename-stem keyword matches, the first 300 characters of the text are
scanned for ระเบียบ(กระทรวง), then กฎกระทรวง, then พระราชบัญญัติ — in
that priority order — defaulting to "กฎหมาย". -/
theorem C8_keyword_priority_amended (text filename : String) :
    (pyInStr "พรบ" (pyLower (pathStem filename)) = true →
     pyInStr "ประกาศ" (pyLower (pathStem filename)) = true →
      (detect_law_meta text filename).2.2.1 = "พระราชบัญญัติ") ∧
    (pyInStr "พรบ" (pyLower (pathStem filename)) = false →
     pyInStr "พ.ร.บ" (pyLower (pathStem filename)) = false →
     pyInStr "ระเบียบ" (pyLower (pathStem filename)) = false →
     pyInStr "กฎกระทรวง" (pyLower (pathStem filename)) = false →
     (pyInStr "ประกาศ" (pyLower (pathStem filename)) = false ∨
       pyInStr "ราชกิจจา" (pyLower (pathStem filename)) = true) →
      (detect_law_meta text filename).2.2.1 =
        (if pyInStr "ระเบียบกระทรวง" (pyTake text 300) ||
            pyInStr "ระเบียบ" (pyTake text 300) then "ระเบียบ"
         else if pyInStr "กฎกระทรวง" (pyTake text 300) then "กฎกระทรวง"
         else if pyInStr "พระราชบัญญัติ" (pyTake text 300) then "พระราชบัญญัติ"
         else "กฎหมาย")) := by
  constructor
  · intro h _
    simp only [detect_law_meta, lawTypeOf, h]
    simp
  · intro h1 h2 h3 h4 h5
    simp only [detect_law_meta, lawTypeOf, h1, h2, h3, h4]
    rcases h5 with h5 | h5 <;> simp only [h5] <;> simp

/-- Concrete instances of amended C8: a filename stem containing both
"พรบ" and "ประกาศ" yields the Act type, and a keyword-free filename
falls back to the text scan in the code's order. -/
theorem C8_keyword_priority_amended_witness :
    (detect_law_meta "" "พรบ-ประกาศ.pdf").2.2.1 = "พระราชบัญญัติ" ∧
    (detect_law_meta "ระเบียบนำ" "x.pdf").2.2.1 =
      (if pyInStr "ระเบียบกระทรวง" (pyTake "ระเบียบนำ" 300) ||
          pyInStr "ระเบียบ" (pyTake "ระเบียบนำ" 300) then "ระเบียบ"
       else if pyInStr "กฎกระทรวง" (pyTake "ระเบียบนำ" 300) then "กฎกระทรวง"
       else if pyInStr "พระราชบัญญัติ" (pyTake "ระเบียบนำ" 300) then "พระราชบัญญัติ"
       else "กฎหมาย") :=
  ⟨(C8_keyword_priority_amended "" "พรบ-ประกาศ.pdf").1 (by decide) (by decide),
   (C8_keyword_priority_amended "ระเบียบนำ" "x.pdf").2 (by decide) (by decide)
     (by decide) (by decide) (Or.inl (by decide))⟩

/-- C9 fails as stated: the year pattern only accepts a 4-digit
numeral, so a 2-digit Buddhist-Era year such as "พ.ศ. ๖๐" produces the
empty string, not "60" as a 2-digit-or-4-digit match would. -/
theorem C9_year_counterexample :
    detect_year "พ.ศ. ๖๐" = "" ∧
    (detect_law_meta "พ.ศ. ๖๐" "x.pdf").2.2.2 = "" ∧
    detect_year "พ.ศ. 60" = "" ∧
    ("" : String) ≠ "60" := by
  refine ⟨?_, ?_, ?_, ?_⟩ <;> decide

set_option maxRecDepth 100000 in
/-- C9 amended: law_year_be is extracted by matching "พ.ศ." followed by
a 4-digit numeral, Thai or Arabic, within the first 3000 characters of
the text; the match is normalized to Arabic digits (a non-empty result
is always four Arabic digit characters), and the result is the empty
string when no such match exists — in particular for a 2-digit year and
for a year lying wholly beyond the 3000-character window. -/
theorem C9_year_extraction (t : String) (f : String) :
    (detect_law_meta t f).2.2.2 = detect_year t ∧
    (detect_year t ≠ "" →
      (detect_year t).length = 4 ∧ (detect_year t).data.all Char.isDigit = true) ∧
    detect_year "พ.ศ. ๒๕๖๐" = "2560" ∧
    detect_year "นำหน้า พ.ศ.2560 ตามหลัง" = "2560" ∧
    detect_year "พ.ศ. ๖๐" = "" ∧
    detect_year (String.mk (List.replicate 3000 'x') ++ "พ.ศ. 2560") = "" ∧
    detect_year "ไม่มีปีเลย" = "" := by
  refine ⟨rfl, detect_year_spec t, ?_, ?_, ?_, ?_, ?_⟩ <;> decide

/-- Concrete instance of amended C9 at a Thai-numeral year. -/
theorem C9_year_extraction_witness :
    (detect_law_meta "พ.ศ. ๒๕๖๐" "x.pdf").2.2.2 = detect_year "พ.ศ. ๒๕๖๐" ∧
    (detect_year "พ.ศ. ๒๕๖๐").length = 4 ∧
    (detect_year "พ.ศ. ๒๕๖๐").data.all Char.isDigit = true :=
  ⟨(C9_year_extraction "พ.ศ. ๒๕๖๐" "x.pdf").1,
   ((C9_year_extraction "พ.ศ. ๒๕๖๐" "x.pdf").2.1 (by decide)).1,
   ((C9_year_extraction "พ.ศ. ๒๕๖๐" "x.pdf").2.1 (by decide)).2⟩

/-- Take the current line (up to the next newline) and the rest after
that newline; fails when the pattern requires a newline and none
remains. -/
def takeLine (cs : List Char) : Option (List Char × List Char) :=
  let line := cs.takeWhile (fun c => c ≠ '\n')
  match cs.drop line.length with
  | '\n' :: r => some (line, r)
  | _ => none

/-- One attempt of the page-stamp pattern of `_strip_page_headers` at a
fixed position:
`หน้า[ \t]+[๐-๙\d]+[^\n]*\n[^\n]*เล่ม[^\n]*\n[^\n]*ราชกิจจานุเบกษา[^\n]*\n[^\n]*\n?`.
Returns the remainder after the match. -/
def matchPageStamp (cs : List Char) : Option (List Char) :=
  if "หน้า".data.isPrefixOf cs then
    let cs1 := cs.drop 4
    let sp := cs1.takeWhile (fun c => c = ' ' ∨ c = '\t')
    if sp.isEmpty then none
    else
      let cs2 := cs1.drop sp.length
      let dg := cs2.takeWhile pyIsDigit
      if dg.isEmpty then none
      else
        match takeLine (cs2.drop dg.length) with
        | none => none
        | some (_, cs4) =>
          match takeLine cs4 with
          | none => none
          | some (l2, cs5) =>
            if listContains "เล่ม".data l2 then
              match takeLine cs5 with
              | none => none
              | some (l3, cs6) =>
                if listContains "ราชกิจจานุเบกษา".data l3 then
                  let l4 := cs6.takeWhile (fun c => c ≠ '\n')
                  some (match cs6.drop l4.length with
                    | '\n' :: r => r
                    | r => r)
                else none
            else none
  else none

/-- Left-to-right non-overlapping substitution scan of the page-stamp
pattern, each match replaced by a newline.  The fuel argument is the
input length plus one; every step consumes at least one character, so
it never runs out. -/
def stripStampAux : Nat → List Char → List Char
  | 0, cs => cs
  | _ + 1, [] => []
  | fuel + 1, c :: rest =>
    match matchPageStamp (c :: rest) with
    | some rem => '\n' :: stripStampAux fuel rem
    | none => c :: stripStampAux fuel rest

/-- The blank-run pattern `\n[ \t]*\n[ \t]*\n` of `_strip_page_headers`
at a fixed position, returning the remainder. -/
def matchTripleNL (cs : List Char) : Option (List Char) :=
  match cs with
  | '\n' :: r1 =>
    let sp1 := r1.takeWhile (fun c => c = ' ' ∨ c = '\t')
    (match r1.drop sp1.length with
    | '\n' :: r2 =>
      let sp2 := r2.takeWhile (fun c => c = ' ' ∨ c = '\t')
      (match r2.drop sp2.length with
      | '\n' :: r3 => some r3
      | _ => none)
    | _ => none)
  | _ => none

/-- Substitution scan of the blank-run pattern, each match replaced by
two newlines. -/
def collapseNLAux : Nat → List Char → List Char
  | 0, cs => cs
  | _ + 1, [] => []
  | fuel + 1, c :: rest =>
    match matchTripleNL (c :: rest) with
    | some rem => '\n' :: '\n' :: collapseNLAux fuel rem
    | none => c :: collapseNLAux fuel rest

/-- `_strip_page_headers` of law_extractor.py: remove ราชกิจจานุเบกษา
page stamps, then collapse the blank-line runs the removal leaves. -/
def strip_page_headers (s : String) : String :=
  let t : List Char := stripStampAux (s.data.length + 1) s.data
  ⟨collapseNLAux (t.length + 1) t⟩

/-- The header pattern of `_normalize_section_headers`:
`^((?:มาตรา|ข้อ))\s*\n[ \t]*([๐-๙\d]+(?:/[๐-๙\d]+)?)` at a fixed line
start.  The backtracking of `\s*\n[ \t]*` succeeds exactly when the
maximal whitespace run after the keyword contains a newline, everything
after its last newline is spaces or tabs, and a digit follows the run.
Returns the keyword, the numeral group and the remainder. -/
def matchHdrNum (cs : List Char) : Option (List Char × List Char × List Char) :=
  let kwrest : Option (List Char × List Char) :=
    if "มาตรา".data.isPrefixOf cs then some ("มาตรา".data, cs.drop 5)
    else if "ข้อ".data.isPrefixOf cs then some ("ข้อ".data, cs.drop 3)
    else none
  match kwrest with
  | none => none
  | some (kw, cs1) =>
    let ws := cs1.takeWhile pyIsSpace
    if ws.contains '\n' ∧
        (ws.reverse.takeWhile (fun c => c ≠ '\n')).all (fun c => c = ' ' ∨ c = '\t') then
      let cs2 := cs1.drop ws.length
      let dg := cs2.takeWhile pyIsDigit
      if dg.isEmpty then none
      else
        match cs2.drop dg.length with
        | '/' :: r2 =>
          let dg2 := r2.takeWhile pyIsDigit
          if dg2.isEmpty then some (kw, dg, cs2.drop dg.length)
          else some (kw, dg ++ '/' :: dg2, r2.drop dg2.length)
        | r => some (kw, dg, r)
    else none

/-- Multiline substitution scan of the header pattern: attempted only at
line starts, replacing the match by keyword, one space and the numeral.
After a replacement the scan resumes right after the numeral, which is
not a line start. -/
def normHdrAux : Nat → Bool → List Char → List Char
  | 0, _, cs => cs
  | _ + 1, _, [] => []
  | fuel + 1, atStart, c :: rest =>
    if atStart then
      match matchHdrNum (c :: rest) with
      | some (kw, num, rem) => kw ++ ' ' :: (num ++ normHdrAux fuel false rem)
      | none => c :: normHdrAux fuel (c = '\n') rest
    else c :: normHdrAux fuel (c = '\n') rest

/-- `_normalize_section_headers` of law_extractor.py: join มาตรา/ข้อ
with its numeral when the numeral sits on the following line. -/
def normalize_section_headers (s : String) : String :=
  ⟨normHdrAux (s.data.length + 1) true s.data⟩

/-- Marker kinds recognized by the hierarchical scan of
`_parse_sections`. -/
inductive MarkKind where
  | partM
  | chapterM
  | sectionM
  deriving DecidableEq

/-- Line classification of `_parse_sections`: part marker first, then
chapter marker, then section marker. -/
def lineMarker (stripped : String) : Option MarkKind :=
  if isHeadingMarker "ภาค" stripped then some .partM
  else if isHeadingMarker "หมวด" stripped then some .chapterM
  else if isSectionStart stripped then some .sectionM
  else none

/-- The part and chapter in effect before a given line index: the last
part/chapter marker strictly before it, scanning markers in order and
stopping at the first marker at or past the line. -/
def lastPartChapter : List (Nat × MarkKind × String) → Nat → String → String → String × String
  | [], _, p, c => (p, c)
  | (idx, k, content) :: rest, line_idx, p, c =>
    if line_idx ≤ idx then (p, c)
    else
      match k with
      | .partM => lastPartChapter rest line_idx content c
      | .chapterM => lastPartChapter rest line_idx p content
      | .sectionM => lastPartChapter rest line_idx p c

/-- Assemble one LawSection per section marker, the text spanning the
lines from its marker up to the next section marker or the end. -/
def buildSections (lines : List String) (markers : List (Nat × MarkKind × String)) :
    List (Nat × String) → List LawSection
  | [] => []
  | (line_idx, label) :: rest =>
    let end_idx := match rest with
      | (i2, _) :: _ => i2
      | [] => lines.length
    let section_text := pyStrip (joinNL ((lines.drop line_idx).take (end_idx - line_idx)))
    let pc := lastPartChapter markers line_idx "" ""
    let number := match sectionNumGroup label with
      | some g => to_arabic g
      | none => label
    { number := number, label := label, text := section_text,
      part := pc.1, chapter := pc.2,
      paragraphs := split_paragraphs section_text } :: buildSections lines markers rest

/-- `_parse_sections` of law_extractor.py. -/
def parse_sections (text : String) : List LawSection :=
  let lines := pySplitlines text
  let markers := lines.enum.filterMap (fun p =>
    match lineMarker (pyStrip p.2) with
    | some k => some (p.1, k, pyStrip p.2)
    | none => none)
  let sectionMarkers := markers.filterMap (fun m =>
    match m.2.1 with
    | .sectionM => some (m.1, m.2.2)
    | _ => none)
  buildSections lines markers sectionMarkers

/-- The JSON record `_save_cache` writes for a document: exactly the
fields of the dict literal in `extract_law`, each section serialized
with number, label, text, part, chapter and paragraphs. -/
structure CacheRecord where
  filename : String
  file_id : String
  law_name : String
  law_short_name : String
  law_type : String
  law_year_be : String
  sections : List LawSection
  full_text : String
  ocr_engine : String
  total_sections : Nat
  deriving DecidableEq

/-- Serialization of a LawDocument into its cache record. -/
def serializeDoc (d : LawDocument) : CacheRecord :=
  { filename := d.filename, file_id := d.file_id, law_name := d.law_name
    law_short_name := d.law_short_name, law_type := d.law_type
    law_year_be := d.law_year_be, sections := d.sections
    full_text := d.full_text, ocr_engine := d.ocr_engine
    total_sections := d.total_sections }

/-- Deserialization of a cached record, as done on a cache hit in
`extract_law` (each field copied back, sections rebuilt from their
serialized fields). -/
def reconstructDoc (r : CacheRecord) : LawDocument :=
  { filename := r.filename, file_id := r.file_id, law_name := r.law_name
    law_short_name := r.law_short_name, law_type := r.law_type
    law_year_be := r.law_year_be, sections := r.sections
    full_text := r.full_text, ocr_engine := r.ocr_engine
    total_sections := r.total_sections }

lemma reconstruct_serialize (d : LawDocument) : reconstructDoc (serializeDoc d) = d := by
  cases d
  rfl

/-- The on-disk OCR cache, modelled as a map from cache-file path to
stored record. -/
def CacheMap : Type := String → Option CacheRecord

/-- `_cache_path` of law_extractor.py: the cache file
`OCR_CACHE_DIR/law_<first 16 hex chars of sha256(file_id)>.json`.  The
hash function is an oracle parameter standing for
`hashlib.sha256(file_id.encode()).hexdigest()`. -/
def cache_path (sha256hex : String → String) (file_id : String) : String :=
  "ocr_cache/law_" ++ (⟨(sha256hex file_id).data.take 16⟩ : String) ++ ".json"

/-- Write-through of `_save_cache`. -/
def updateCache (cache : CacheMap) (key : String) (rec : CacheRecord) : CacheMap :=
  fun k => if k = key then some rec else cache k

/-- External collaborators of `extract_law`: PyMuPDF text extraction
(None models a raised exception), the Gemini OCR call (None models a
raised remote exception) and the SHA-256 hex digest. -/
structure Oracle (β : Type) where
  pymupdf : β → Option (String × Nat)
  gemini : β → Option String
  sha256hex : String → String

/-- `OCR_MIN_CHARS_PER_PAGE` of config.py. -/
def OCR_MIN_CHARS_PER_PAGE : Nat := 50

/-- `_is_text_good` of law_extractor.py: zero pages fail; otherwise the
average characters per page must reach the threshold
(`len(text.strip())/page_count >= 50` iff `50*page_count ≤ len`). -/
def is_text_good (text : String) (page_count : Nat) : Bool :=
  if page_count = 0 then false
  else OCR_MIN_CHARS_PER_PAGE * page_count ≤ (pyStrip text).length

/-- Result of one `extract_law` call: the document, the cache state
after the call, and whether the PyMuPDF and Gemini extraction paths
ran.  The Markdown backup is a write-only artifact read by nothing in
the claims and is not modelled. -/
structure ExtractResult where
  doc : LawDocument
  cache : CacheMap
  ranPymupdf : Bool
  ranGemini : Bool

/-- The document built by the non-cached path of `extract_law` from the
extracted text: metadata detection on the raw text, then page-stamp
stripping, header normalization and section parsing. -/
def buildLawDocument (text : String) (file_id filename ocr_engine : String) : LawDocument :=
  let meta := detect_law_meta text filename
  let text2 := normalize_section_headers (strip_page_headers text)
  let sections := parse_sections text2
  { filename := filename, file_id := file_id
    law_name := meta.1, law_short_name := meta.2.1
    law_type := meta.2.2.1, law_year_be := meta.2.2.2
    sections := sections, full_text := text2
    ocr_engine := ocr_engine, total_sections := sections.length }

/-- The extraction phases of `extract_law` after a cache miss: PyMuPDF
first, Gemini when PyMuPDF raises or its text is too sparse; a Gemini
failure propagates (None).  On success the document is built and the
cache written. -/
def extractFresh {β : Type} (O : Oracle β) (cache : CacheMap) (pdf : β)
    (file_id filename : String) : Option ExtractResult :=
  let res : Option (String × String) :=
    match O.pymupdf pdf with
    | some (text, pages) =>
      if is_text_good text pages then some (text, "pymupdf")
      else
        (match O.gemini pdf with
        | some t => some (t, "gemini")
        | none => none)
    | none =>
      match O.gemini pdf with
      | some t => some (t, "gemini")
      | none => none
  match res with
  | none => none
  | some (text, engine) =>
    let doc := buildLawDocument text file_id filename engine
    some { doc := doc
           cache := updateCache cache (cache_path O.sha256hex file_id) (serializeDoc doc)
           ranPymupdf := true
           ranGemini := engine = "gemini" }

/-- `extract_law` of law_extractor.py: unless force, a cache hit
deserializes and returns the cached document immediately; otherwise the
document is extracted, parsed and cached. -/
def extract_law {β : Type} (O : Oracle β) (cache : CacheMap) (pdf : β)
    (file_id filename : String) (force : Bool) : Option ExtractResult :=
  if force = false then
    match cache (cache_path O.sha256hex file_id) with
    | some rec =>
      some { doc := reconstructDoc rec, cache := cache
             ranPymupdf := false, ranGemini := false }
    | none => extractFresh O cache pdf file_id filename
  else extractFresh O cache pdf file_id filename

lemma extractFresh_cache {β : Type} (O : Oracle β) (cache : CacheMap) (pdf : β)
    (fid fn : String) (r : ExtractResult)
    (h : extractFresh O cache pdf fid fn = some r) :
    r.cache = updateCache cache (cache_path O.sha256hex fid) (serializeDoc r.doc) := by
  unfold extractFresh at h
  rcases hp : O.pymupdf pdf with _ | ⟨text, pages⟩ <;> rw [hp] at h
  · rcases hg : O.gemini pdf with _ | t <;> rw [hg] at h
    · simp at h
    · cases h
      rfl
  · dsimp only at h
    by_cases hgood : is_text_good text pages = true
    · rw [if_pos hgood] at h
      cases h
      rfl
    · rw [if_neg hgood] at h
      rcases hg : O.gemini pdf with _ | t <;> rw [hg] at h
      · simp at h
      · cases h
        rfl

lemma extract_law_hit {β : Type} (O : Oracle β) (cache : CacheMap) (pdf : β)
    (fid fn : String) (rec : CacheRecord)
    (hc : cache (cache_path O.sha256hex fid) = some rec) :
    extract_law O cache pdf fid fn false =
      some { doc := reconstructDoc rec, cache := cache
             ranPymupdf := false, ranGemini := false } := by
  simp [extract_law, hc]

/-- C6: calling extract_law twice with the same pdf bytes, file_id,
filename and force = false — the cache modelled as explicit state
written by the first call — returns documents with identical serialized
contents on both calls, and the second call performs no extraction at
all (neither the PyMuPDF nor the remote-OCR path runs), because the
cache hit deserializes and returns the cached document immediately,
leaving the cache unchanged. -/
theorem C6_cache_idempotence {β : Type} (O : Oracle β) (cache : CacheMap)
    (pdf : β) (fid fn : String) (r1 : ExtractResult)
    (h : extract_law O cache pdf fid fn false = some r1) :
    ∃ r2, extract_law O r1.cache pdf fid fn false = some r2 ∧
      serializeDoc r2.doc = serializeDoc r1.doc ∧
      r2.cache = r1.cache ∧ r2.ranPymupdf = false ∧ r2.ranGemini = false := by
  rw [extract_law, if_pos rfl] at h
  rcases hc : cache (cache_path O.sha256hex fid) with _ | rec <;> rw [hc] at h
  · have hcache := extractFresh_cache O cache pdf fid fn r1 h
    have hhit : r1.cache (cache_path O.sha256hex fid) = some (serializeDoc r1.doc) := by
      rw [hcache]
      simp [updateCache]
    refine ⟨_, extract_law_hit O r1.cache pdf fid fn _ hhit, ?_, rfl, rfl, rfl⟩
    simp [reconstruct_serialize]
  · injection h with h'
    subst h'
    exact ⟨_, extract_law_hit O cache pdf fid fn rec hc, rfl, rfl, rfl, rfl⟩

def wC6rec : CacheRecord :=
  { filename := "f.pdf", file_id := "FID6", law_name := "ชื่อเต็ม"
    law_short_name := "สั้น", law_type := "พระราชบัญญัติ", law_year_be := "2560"
    sections := [], full_text := "", ocr_engine := "pymupdf", total_sections := 0 }

def wC6oracle : Oracle Unit :=
  { pymupdf := fun _ => none, gemini := fun _ => none
    sha256hex := fun _ => "abcdef0123456789abcdef0123456789" }

def wC6cache : CacheMap :=
  fun k => if k = cache_path wC6oracle.sha256hex "FID6" then some wC6rec else none

def wC6r1 : ExtractResult :=
  { doc := reconstructDoc wC6rec, cache := wC6cache
    ranPymupdf := false, ranGemini := false }

/-- Concrete instance of C6 on a populated cache. -/
theorem C6_cache_idempotence_witness :
    extract_law wC6oracle wC6cache () "FID6" "f.pdf" false = some wC6r1 ∧
    ∃ r2, extract_law wC6oracle wC6r1.cache () "FID6" "f.pdf" false = some r2 ∧
      serializeDoc r2.doc = serializeDoc wC6r1.doc ∧
      r2.cache = wC6r1.cache ∧ r2.ranPymupdf = false ∧ r2.ranGemini = false :=
  ⟨rfl, C6_cache_idempotence wC6oracle wC6cache () "FID6" "f.pdf" wC6r1 rfl⟩

/-- C10: the cache location depends on only the first 16 hex characters
of sha256(file_id), so for two distinct file_ids whose digests agree on
that leading segment the cache paths coincide, and extract_law with
force = false on the second document returns the first document's
cached LawDocument — running no extraction — instead of extracting the
second. -/
theorem C10_cache_key_collision {β : Type} (O : Oracle β) (cache : CacheMap)
    (pdf1 pdf2 : β) (fid1 fid2 fn1 fn2 : String) (r1 : ExtractResult)
    (hne : fid1 ≠ fid2)
    (hcoll : (O.sha256hex fid1).data.take 16 = (O.sha256hex fid2).data.take 16)
    (h : extract_law O cache pdf1 fid1 fn1 false = some r1) :
    cache_path O.sha256hex fid1 = cache_path O.sha256hex fid2 ∧
    extract_law O r1.cache pdf2 fid2 fn2 false =
      some { doc := r1.doc, cache := r1.cache
             ranPymupdf := false, ranGemini := false } := by
  have hpath : cache_path O.sha256hex fid1 = cache_path O.sha256hex fid2 := by
    unfold cache_path
    rw [hcoll]
  refine ⟨hpath, ?_⟩
  rw [extract_law, if_pos rfl] at h
  rcases hc : cache (cache_path O.sha256hex fid1) with _ | rec <;> rw [hc] at h
  · have hcache := extractFresh_cache O cache pdf1 fid1 fn1 r1 h
    have hhit : r1.cache (cache_path O.sha256hex fid2) = some (serializeDoc r1.doc) := by
      rw [hcache, ← hpath]
      simp [updateCache]
    rw [extract_law_hit O r1.cache pdf2 fid2 fn2 _ hhit, reconstruct_serialize]
  · injection h with h'
    subst h'
    have hhit : cache (cache_path O.sha256hex fid2) = some rec := by
      rw [← hpath]
      exact hc
    exact extract_law_hit O cache pdf2 fid2 fn2 rec hhit

def wC10rec : CacheRecord :=
  { filename := "a.pdf", file_id := "a", law_name := "กฎหมาย ก"
    law_short_name := "กฯ", law_type := "ระเบียบ", law_year_be := ""
    sections := [], full_text := "", ocr_engine := "gemini", total_sections := 0 }

def wC10oracle : Oracle Unit :=
  { pymupdf := fun _ => none, gemini := fun _ => none
    sha256hex := fun _ => "0123456789abcdef0123456789abcdef" }

def wC10cache : CacheMap :=
  fun k => if k = cache_path wC10oracle.sha256hex "a" then some wC10rec else none

def wC10r1 : ExtractResult :=
  { doc := reconstructDoc wC10rec, cache := wC10cache
    ranPymupdf := false, ranGemini := false }

/-- Concrete instance of C10 on two file ids whose digests share the
16-character segment. -/
theorem C10_cache_key_collision_witness :
    cache_path wC10oracle.sha256hex "a" = cache_path wC10oracle.sha256hex "b" ∧
    extract_law wC10oracle wC10r1.cache () "b" "b.pdf" false =
      some { doc := wC10r1.doc, cache := wC10r1.cache
             ranPymupdf := false, ranGemini := false } :=
  C10_cache_key_collision wC10oracle wC10cache () () "a" "b" "a.pdf" "b.pdf" wC10r1
    (by decide) rfl rfl
